import Mathlib

/-!
Verification development for the trireme UID monitor (`uidmonitor.UIDProcessor`)
and its file-backed context store (`monitor/contextstore`).

The Go code is shallowly embedded as pure Lean functions over an explicit
state record.  External collaborators (policy handler, metadata extractor,
cgroup classifier, context-store filesystem writes) are modelled by an
oracle environment `Env`: `Env.ok` decides whether a given collaborator call
succeeds, and `Env.extractR` supplies the runtime info produced by a
successful metadata extraction.  Every collaborator call is appended to a
trace in the state so that ordering and call-count properties can be stated.
-/

namespace Trireme

/-- Inbound RPC event information; only the fields the UID monitor reads. -/
structure EventInfo where
  PUID : String
  PID : String
  Cgroup : String
deriving Repr, DecidableEq

/-- Runtime info produced by metadata extraction: the cgroup mark, the
default IP address, and the tag set (modelled opaquely as strings). -/
structure PURuntime where
  cgroupMark : String
  defaultIP : String
  tags : List String
deriving Repr, DecidableEq

/-- `StoredContext`: the serialized record the monitor persists per unit. -/
structure StoredContext where
  MarkVal : String
  eventInfo : EventInfo
deriving Repr, DecidableEq

/-- `puToPidEntry`: one membership entry per live processing unit.  The Go
`pidlist` is a `map[string]bool` used as a set; we model its key set as a
duplicate-free list. -/
structure puToPidEntry where
  pidlist : List String
  Info : PURuntime
  publishedContextID : String
deriving Repr, DecidableEq

/-- Lifecycle event kinds forwarded to the external policy handler. -/
inductive PUEventKind where
  | create
  | start
  | stop
  | destroy
  | pause
deriving Repr, DecidableEq

/-- One collaborator call, as recorded in the trace. -/
inductive CallEvent where
  | extractCall (ev : EventInfo)
  | setRuntime (id : String) (rt : PURuntime)
  | handleEvent (id : String) (k : PUEventKind)
  | creategroup (pid : String)
  | assignMark (pid : String) (mark : Nat)
  | addProcess (pid : String) (n : Int)
  | deleteCgroup (id : String)
  | deleteBasePath (id : String)
  | collectStart (ctx : String) (ip : String) (tags : List String)
  | storeWrite (id : String)
  | storeRemove (id : String)
deriving Repr, DecidableEq

/-- Errors the embedded code can return. -/
inductive Err where
  | collabFail (c : CallEvent)
  | noMark
  | markNotNumeric (s : String)
  | pidNotNumeric (s : String)
  | invalidPUID (s : String)
  | unknownContextID (id : String)
  | storeReadFail (id : String)
  | corruptRecord (id : String)
deriving Repr, DecidableEq

deriving instance DecidableEq for Except

/-- Oracle environment: which collaborator calls succeed, and what the
metadata extractor returns on success. -/
structure Env where
  ok : CallEvent → Bool
  extractR : EventInfo → PURuntime

/-! ### Association-list maps

The trireme in-memory caches are modelled from the spec as plain map
abstractions over string keys (spec sections 4.2 and 9: two associative
indices; an add is an upsert, a remove deletes the key). -/

/-- Look a key up in an association list. -/
def alookup {β : Type} : List (String × β) → String → Option β
  | [], _ => none
  | (k', v) :: t, k => if k' = k then some v else alookup t k

/-- Remove every binding of a key. -/
def eraseKey {β : Type} (k : String) (m : List (String × β)) : List (String × β) :=
  m.filter (fun p => decide (p.1 ≠ k))

/-- Upsert a binding. -/
def mapSet {β : Type} (k : String) (v : β) (m : List (String × β)) : List (String × β) :=
  (k, v) :: eraseKey k m

/-- Insert a string into a set modelled as a duplicate-free list. -/
def insertStr (x : String) (l : List String) : List String :=
  if x ∈ l then l else x :: l

/-! ### Numeric parsing

`strconv.ParseUint(markval, 10, 32)` and `strconv.Atoi(event.PID)`. -/

/-- Value of a digit list, most significant first. -/
def digitsVal (l : List Char) : Nat :=
  l.foldl (fun a c => a * 10 + (c.toNat - 48)) 0

/-- Go `strconv.ParseUint(s, 10, 32)`: nonempty, decimal digits only, and
the value must fit in 32 bits. -/
def parseUint32 (s : String) : Option Nat :=
  let l := s.toList
  if l.isEmpty || !(l.all Char.isDigit) then none
  else if digitsVal l < 4294967296 then some (digitsVal l) else none

/-- Go `strconv.Atoi(s)`: optional sign, decimal digits, 64-bit int range. -/
def atoi (s : String) : Option Int :=
  match s.toList with
  | [] => none
  | c :: rest =>
    let p : Int × List Char :=
      if c = '-' then (-1, rest) else if c = '+' then (1, rest) else (1, c :: rest)
    if p.2.isEmpty || !(p.2.all Char.isDigit) then none
    else
      let v : Int := p.1 * (digitsVal p.2 : Int)
      if -9223372036854775808 ≤ v ∧ v ≤ 9223372036854775807 then some v else none

/-! ### String helpers used by `generateContextID` and the store paths -/

/-- Go `strings.TrimLeft(s, "/")`: drop all leading slashes. -/
def trimSlashes (s : String) : String :=
  String.mk (s.toList.dropWhile (fun c => c = '/'))

/-- `s[strings.LastIndex(s, "/")+1:]`: the part after the last slash (the
whole string when there is none). -/
def afterLastSlash (s : String) : String :=
  String.mk ((s.toList.reverse.takeWhile (fun c => c ≠ '/')).reverse)

/-- `c` matches the regexp class `[a-zA-Z0-9_]`. -/
def isWordChar (c : Char) : Bool :=
  c.isAlpha || c.isDigit || c = '_'

/-- The compiled `regStop` pattern `^/trireme/[a-zA-Z0-9_].{0,11}$`:
the string is `/trireme/` followed by one word-class character and up to
eleven further non-newline characters. -/
def regStopMatch (s : String) : Bool :=
  let l := s.toList
  (decide (l.take 9 = "/trireme/".toList)) &&
  (match l.drop 9 with
   | [] => false
   | c :: t => isWordChar c && decide (t.length ≤ 11) && t.all (fun ch => ch ≠ '\n'))

/-- `triremeBaseCgroup`. -/
def triremeBaseCgroup : String := "/trireme"

/-! ### Context store (`monitor/contextstore/contextstore.go`)

The filesystem is modelled as an association list from a unit id (the id's
directory) to the state of its `eventInfo.data` file: missing, present but
not deserializable, or holding a valid record.  `filepath.Join` collapses
leading slashes of the id, which we model with `storeKey`. -/

/-- Contents of one id-scoped store directory. -/
inductive DirContent where
  | missingFile
  | corrupt
  | valid (rec : StoredContext)
deriving Repr, DecidableEq

/-- The store filesystem: one entry per existing id directory. -/
abbrev StoreFS : Type := List (String × DirContent)

/-- `filepath.Join(base, id)` collapses the leading slashes of `id`, so two
ids differing only in leading slashes address the same directory. -/
def storeKey (id : String) : String := trimSlashes id

/-- `store.StoreContext`: create the directory if absent and (over)write the
serialized record. -/
def StoreContext (fs : StoreFS) (id : String) (rec : StoredContext) : StoreFS :=
  mapSet (storeKey id) (DirContent.valid rec) fs

/-- `store.GetContextInfo`: fail when no directory exists; fail without
side effects when the data file cannot be read; on a deserialization
failure remove the id's stored state before returning the error. -/
def GetContextInfo (fs : StoreFS) (id : String) : Except Err StoredContext × StoreFS :=
  match alookup fs (storeKey id) with
  | none => (Except.error (Err.unknownContextID id), fs)
  | some DirContent.missingFile => (Except.error (Err.storeReadFail id), fs)
  | some DirContent.corrupt =>
      (Except.error (Err.corruptRecord id), eraseKey (storeKey id) fs)
  | some (DirContent.valid rec) => (Except.ok rec, fs)

/-- `store.RemoveContext`: fail when the id's directory does not exist,
otherwise delete it recursively (in the flat model: drop the key). -/
def RemoveContext (fs : StoreFS) (id : String) : Except Err Unit × StoreFS :=
  match alookup fs (storeKey id) with
  | none => (Except.error (Err.unknownContextID id), fs)
  | some _ => (Except.ok (), eraseKey (storeKey id) fs)

/-! ### Monitor state -/

/-- The monitor's mutable state: the two cache indices, the context-store
filesystem, the set of per-process cgroups that currently exist, and the
trace of collaborator calls made so far. -/
structure MState where
  putoPidMap : List (String × puToPidEntry)
  pidToPU : List (String × String)
  contextStore : StoreFS
  cgroups : List String
  trace : List CallEvent
deriving Repr, DecidableEq

/-- The empty initial state. -/
def initState : MState :=
  { putoPidMap := [], pidToPU := [], contextStore := [], cgroups := [], trace := [] }

/-- `netcls.DeleteCgroup`: always attempted (traced); on oracle success the
cgroup disappears, on failure the error is reported to the caller (who may
ignore it). -/
def deleteCgroupOp (env : Env) (s : MState) (id : String) : Except Err Unit × MState :=
  let s1 := { s with trace := s.trace ++ [CallEvent.deleteCgroup id] }
  if env.ok (CallEvent.deleteCgroup id) then
    (Except.ok (), { s1 with cgroups := s1.cgroups.erase id })
  else
    (Except.error (Err.collabFail (CallEvent.deleteCgroup id)), s1)

/-- `UIDProcessor.processLinuxServiceStart`: create the cgroup, then bind
it — empty mark, failed mark assignment and failed process add compensate
by deleting the cgroup; the two `strconv` parse failures return without
compensation, exactly as in the source. -/
def processLinuxServiceStart (env : Env) (s : MState) (event : EventInfo)
    (runtimeInfo : PURuntime) : Except Err Unit × MState :=
  let s1 := { s with trace := s.trace ++ [CallEvent.creategroup event.PID] }
  if !env.ok (CallEvent.creategroup event.PID) then
    (Except.error (Err.collabFail (CallEvent.creategroup event.PID)), s1)
  else
    let s2 := { s1 with cgroups := insertStr event.PID s1.cgroups }
    if runtimeInfo.cgroupMark = "" then
      (Except.error Err.noMark, (deleteCgroupOp env s2 event.PID).2)
    else
      match parseUint32 runtimeInfo.cgroupMark with
      | none => (Except.error (Err.markNotNumeric runtimeInfo.cgroupMark), s2)
      | some mark =>
        let s3 := { s2 with trace := s2.trace ++ [CallEvent.assignMark event.PID mark] }
        if !env.ok (CallEvent.assignMark event.PID mark) then
          (Except.error (Err.collabFail (CallEvent.assignMark event.PID mark)),
           (deleteCgroupOp env s3 event.PID).2)
        else
          match atoi event.PID with
          | none => (Except.error (Err.pidNotNumeric event.PID), s3)
          | some pid =>
            let s4 := { s3 with trace := s3.trace ++ [CallEvent.addProcess event.PID pid] }
            if !env.ok (CallEvent.addProcess event.PID pid) then
              (Except.error (Err.collabFail (CallEvent.addProcess event.PID pid)),
               (deleteCgroupOp env s4 event.PID).2)
            else
              (Except.ok (), s4)

/-- `UIDProcessor.Start`. -/
def Start (env : Env) (s : MState) (eventInfo : EventInfo) : Except Err Unit × MState :=
  let contextID := eventInfo.PUID
  match alookup s.putoPidMap contextID with
  | none =>
    let s0 := { s with trace := s.trace ++ [CallEvent.extractCall eventInfo] }
    if !env.ok (CallEvent.extractCall eventInfo) then
      (Except.error (Err.collabFail (CallEvent.extractCall eventInfo)), s0)
    else
      let runtimeInfo := env.extractR eventInfo
      let publishedContextID := contextID ++ runtimeInfo.cgroupMark
      let s1 := { s0 with
        trace := s0.trace ++ [CallEvent.setRuntime publishedContextID runtimeInfo] }
      if !env.ok (CallEvent.setRuntime publishedContextID runtimeInfo) then
        (Except.error (Err.collabFail (CallEvent.setRuntime publishedContextID runtimeInfo)), s1)
      else
        let s2 := { s1 with
          trace := s1.trace ++ [CallEvent.handleEvent publishedContextID PUEventKind.start] }
        if !env.ok (CallEvent.handleEvent publishedContextID PUEventKind.start) then
          (Except.error
            (Err.collabFail (CallEvent.handleEvent publishedContextID PUEventKind.start)), s2)
        else
          match processLinuxServiceStart env s2 eventInfo runtimeInfo with
          | (Except.error e, s3) => (Except.error e, s3)
          | (Except.ok _, s3) =>
            let s4 := { s3 with trace := s3.trace ++
              [CallEvent.collectStart contextID runtimeInfo.defaultIP runtimeInfo.tags] }
            let entry : puToPidEntry :=
              { pidlist := [eventInfo.PID], Info := runtimeInfo,
                publishedContextID := publishedContextID }
            let s5 := { s4 with putoPidMap := mapSet contextID entry s4.putoPidMap }
            let s6 := { s5 with pidToPU := mapSet eventInfo.PID contextID s5.pidToPU }
            let s7 := { s6 with trace := s6.trace ++ [CallEvent.storeWrite contextID] }
            let record0 : StoredContext :=
              { MarkVal := runtimeInfo.cgroupMark, eventInfo := eventInfo }
            if env.ok (CallEvent.storeWrite contextID) then
              (Except.ok (), { s7 with contextStore := StoreContext s7.contextStore contextID record0 })
            else
              (Except.error (Err.collabFail (CallEvent.storeWrite contextID)), s7)
  | some pids =>
    let entry' := { pids with pidlist := insertStr eventInfo.PID pids.pidlist }
    let s1 := { s with putoPidMap := mapSet contextID entry' s.putoPidMap }
    let s2 := { s1 with pidToPU := mapSet eventInfo.PID eventInfo.PUID s1.pidToPU }
    processLinuxServiceStart env s2 eventInfo pids.Info

/-- `UIDProcessor.generateContextID`. -/
def generateContextID (eventInfo : EventInfo) : Except Err String :=
  if eventInfo.Cgroup ≠ "" then
    if !regStopMatch eventInfo.Cgroup then
      Except.error (Err.invalidPUID eventInfo.Cgroup)
    else
      Except.ok ("/" ++ afterLastSlash (afterLastSlash eventInfo.Cgroup))
  else
    Except.ok ("/" ++ afterLastSlash eventInfo.PUID)

/-- `UIDProcessor.Stop` (which also performs destruction for the last pid). -/
def Stop (env : Env) (s : MState) (eventInfo : EventInfo) : Except Err Unit × MState :=
  match generateContextID eventInfo with
  | Except.error e => (Except.error e, s)
  | Except.ok cid0 =>
    if cid0 = triremeBaseCgroup then
      (Except.ok (), { s with trace := s.trace ++ [CallEvent.deleteBasePath cid0] })
    else
      let stoppedpid := trimSlashes cid0
      let contextID :=
        match alookup s.pidToPU stoppedpid with
        | some puid => puid
        | none => cid0
      match alookup s.putoPidMap contextID with
      | none => (Except.ok (), s)
      | some ctx =>
        let publishedContextID := ctx.publishedContextID
        let pidlist' := ctx.pidlist.erase stoppedpid
        let s1 := { s with
          putoPidMap := mapSet contextID { ctx with pidlist := pidlist' } s.putoPidMap }
        let s2 := { s1 with pidToPU := eraseKey stoppedpid s1.pidToPU }
        if pidlist' ≠ [] then
          deleteCgroupOp env s2 stoppedpid
        else
          let s3 := { s2 with trace := s2.trace ++
            [CallEvent.handleEvent publishedContextID PUEventKind.stop] }
          let s4 := { s3 with putoPidMap := eraseKey contextID s3.putoPidMap }
          let s5 := { s4 with trace := s4.trace ++ [CallEvent.storeRemove contextID] }
          let s6 := { s5 with contextStore := (RemoveContext s5.contextStore contextID).2 }
          let s7 := { s6 with trace := s6.trace ++
            [CallEvent.handleEvent publishedContextID PUEventKind.destroy] }
          deleteCgroupOp env s7 stoppedpid

/-- `UIDProcessor.Create`: forward the event to the policy handler. -/
def Create (env : Env) (s : MState) (eventInfo : EventInfo) : Except Err Unit × MState :=
  let c := CallEvent.handleEvent eventInfo.PUID PUEventKind.create
  let s1 := { s with trace := s.trace ++ [c] }
  if env.ok c then (Except.ok (), s1) else (Except.error (Err.collabFail c), s1)

/-- `UIDProcessor.Pause`: resolve a contextID and forward a pause notice. -/
def Pause (env : Env) (s : MState) (eventInfo : EventInfo) : Except Err Unit × MState :=
  match generateContextID eventInfo with
  | Except.error e => (Except.error e, s)
  | Except.ok cid =>
    let c := CallEvent.handleEvent cid PUEventKind.pause
    let s1 := { s with trace := s.trace ++ [c] }
    if env.ok c then (Except.ok (), s1) else (Except.error (Err.collabFail c), s1)

/-- `UIDProcessor.Destroy`: a deliberate no-op. -/
def Destroy (_env : Env) (s : MState) (_eventInfo : EventInfo) : Except Err Unit × MState :=
  (Except.ok (), s)

/-! ### Resync (`UIDProcessor.ReSync`) -/

/-- One live cgroup as observed from the kernel at resync time: its name,
its live member processes, and its assigned mark value. -/
structure LiveCgroup where
  name : String
  procs : List String
  mark : String
deriving Repr, DecidableEq

/-- Resync phase 1 loop: delete every empty live cgroup, and accumulate
the mark-to-pids map over the non-empty ones (lists for one mark are
merged by appending). -/
def buildMarkMapAux (env : Env) (acc : List (String × List String)) (s : MState) :
    List LiveCgroup → List (String × List String) × MState
  | [] => (acc, s)
  | cg :: rest =>
    if cg.procs.isEmpty then
      buildMarkMapAux env acc (deleteCgroupOp env s cg.name).2 rest
    else
      match alookup acc cg.mark with
      | none => buildMarkMapAux env (acc ++ [(cg.mark, cg.procs)]) s rest
      | some l => buildMarkMapAux env (mapSet cg.mark (l ++ cg.procs) acc) s rest

/-- Resync phase 1, starting from the empty map. -/
def buildMarkMap (env : Env) (s : MState) (live : List LiveCgroup) :
    List (String × List String) × MState :=
  buildMarkMapAux env [] s live

/-- The replay loop of resync phase 2: one Start per live pid, each with
the stored event's PID field replaced by that pid. -/
def resyncReplay (env : Env) (base : EventInfo) (s : MState) : List String → MState
  | [] => s
  | pid :: rest => resyncReplay env base (Start env s { base with PID := pid }).2 rest

/-- Resync phase 2, one stored id: read its record (skipping on failure);
remove it when its mark has no live pids; otherwise replay one Start per
live pid. -/
def resyncStep (env : Env) (mark2pid : List (String × List String))
    (s : MState) (id : String) : MState :=
  match GetContextInfo s.contextStore ("/" ++ id) with
  | (Except.error _, fs') => { s with contextStore := fs' }
  | (Except.ok storedPU, fs') =>
    let s1 := { s with contextStore := fs' }
    match alookup mark2pid storedPU.MarkVal with
    | none =>
      let s2 := { s1 with trace := s1.trace ++ [CallEvent.storeRemove ("/" ++ id)] }
      { s2 with contextStore := (RemoveContext s2.contextStore ("/" ++ id)).2 }
    | some pids =>
      resyncReplay env storedPU.eventInfo s1 pids

/-- The walk over the snapshot of stored ids; no per-id error aborts it. -/
def resyncWalk (env : Env) (mark2pid : List (String × List String)) (s : MState) :
    List String → MState
  | [] => s
  | id :: rest => resyncWalk env mark2pid (resyncStep env mark2pid s id) rest

/-- `UIDProcessor.ReSync`: snapshot the stored ids, clean up and index the
live cgroups, then process every stored id. -/
def ReSync (env : Env) (s : MState) (live : List LiveCgroup) : MState :=
  let ids := s.contextStore.map Prod.fst
  let built := buildMarkMap env s live
  resyncWalk env built.1 built.2 ids

/-! ### Reachability -/

/-- One externally triggered operation. -/
inductive Op where
  | create (ev : EventInfo)
  | start (ev : EventInfo)
  | stop (ev : EventInfo)
  | pause (ev : EventInfo)
  | destroy (ev : EventInfo)
  | resync (live : List LiveCgroup)

/-- Apply one operation, discarding its result. -/
def applyOp (env : Env) (s : MState) : Op → MState
  | Op.create ev => (Create env s ev).2
  | Op.start ev => (Start env s ev).2
  | Op.stop ev => (Stop env s ev).2
  | Op.pause ev => (Pause env s ev).2
  | Op.destroy ev => (Destroy env s ev).2
  | Op.resync live => ReSync env s live

/-- Run a sequence of operations, each under its own environment. -/
def runOps (s : MState) : List (Env × Op) → MState
  | [] => s
  | p :: rest => runOps (applyOp p.1 s p.2) rest

/-! ### State shapes used by the theorems -/

/-- The state after a fully successful classifier binding for pid `pid`
carrying mark `m` (numeric pid `n`). -/
def plsOkState (s : MState) (pid : String) (m : Nat) (n : Int) : MState :=
  { s with
    cgroups := insertStr pid s.cgroups,
    trace := s.trace ++ [CallEvent.creategroup pid,
      CallEvent.assignMark pid m, CallEvent.addProcess pid n] }

/-- The state after a fully successful first-time Start: all eight steps
ran in order and both caches and the store were updated. -/
def startFreshOkState (env : Env) (s : MState) (ev : EventInfo) (m : Nat) (n : Int) : MState :=
  { s with
    trace := s.trace ++ [CallEvent.extractCall ev,
      CallEvent.setRuntime (ev.PUID ++ (env.extractR ev).cgroupMark) (env.extractR ev),
      CallEvent.handleEvent (ev.PUID ++ (env.extractR ev).cgroupMark) PUEventKind.start,
      CallEvent.creategroup ev.PID,
      CallEvent.assignMark ev.PID m,
      CallEvent.addProcess ev.PID n,
      CallEvent.collectStart ev.PUID (env.extractR ev).defaultIP (env.extractR ev).tags,
      CallEvent.storeWrite ev.PUID],
    cgroups := insertStr ev.PID s.cgroups,
    putoPidMap := mapSet ev.PUID
      (puToPidEntry.mk [ev.PID] (env.extractR ev) (ev.PUID ++ (env.extractR ev).cgroupMark))
      s.putoPidMap,
    pidToPU := mapSet ev.PID ev.PUID s.pidToPU,
    contextStore := StoreContext s.contextStore ev.PUID
      (StoredContext.mk (env.extractR ev).cgroupMark ev) }

/-- The cache state after the already-Active Start path inserted the new
pid into the unit's member set and into the process index. -/
def startExistingState (s : MState) (puid pid : String) (pids : puToPidEntry) : MState :=
  { s with
    putoPidMap := mapSet puid { pids with pidlist := insertStr pid pids.pidlist } s.putoPidMap,
    pidToPU := mapSet pid puid s.pidToPU }

/-- The state after the last-member teardown of unit `u` with entry `ctx`,
triggered by stopping pid `sp`. -/
def stopTeardownState (env : Env) (s : MState) (u sp : String) (ctx : puToPidEntry) : MState :=
  { s with
    putoPidMap := eraseKey u (mapSet u { ctx with pidlist := ctx.pidlist.erase sp } s.putoPidMap),
    pidToPU := eraseKey sp s.pidToPU,
    contextStore := (RemoveContext s.contextStore u).2,
    cgroups := if env.ok (CallEvent.deleteCgroup sp) then s.cgroups.erase sp else s.cgroups,
    trace := s.trace ++ [CallEvent.handleEvent ctx.publishedContextID PUEventKind.stop,
      CallEvent.storeRemove u,
      CallEvent.handleEvent ctx.publishedContextID PUEventKind.destroy,
      CallEvent.deleteCgroup sp] }

/-- Coherence of a unit map `P` and a process index `I`: every indexed pid
maps to a unit whose entry exists and whose member set contains the pid. -/
def MapsCoherent (P : List (String × puToPidEntry)) (I : List (String × String)) : Prop :=
  ∀ pid ctx, alookup I pid = some ctx →
    ∃ e, alookup P ctx = some e ∧ pid ∈ e.pidlist

/-- The invariant on a monitor state. -/
def IndexCoherent (s : MState) : Prop :=
  MapsCoherent s.putoPidMap s.pidToPU

/-- The spec's full process-index invariant as claimed: coherence plus
exclusivity (no other membership entry contains an indexed pid). -/
def ClaimedPidInvariant (s : MState) : Prop :=
  IndexCoherent s ∧
  ∀ pid ctx c' e', alookup s.pidToPU pid = some ctx →
    alookup s.putoPidMap c' = some e' → pid ∈ e'.pidlist → c' = ctx

/-- The state a resync step leaves for a dead unit: its record is removed
after a store-remove call, nothing else changes. -/
def resyncDeadState (s : MState) (fs' : StoreFS) (id : String) : MState :=
  { s with
    contextStore := (RemoveContext fs' ("/" ++ id)).2,
    trace := s.trace ++ [CallEvent.storeRemove ("/" ++ id)] }

/-- The state a resync step leaves for an unreadable record: only the
store's self-healing effect remains. -/
def resyncSkipState (s : MState) (fs' : StoreFS) : MState :=
  { s with contextStore := fs' }

/-! ### Concrete objects used by witnesses and counterexamples -/

/-- An environment in which every collaborator call succeeds and
extraction yields the numeric mark 5. -/
def envAllOk : Env :=
  { ok := fun _ => true,
    extractR := fun _ => { cgroupMark := "5", defaultIP := "ip", tags := ["t"] } }

/-- An environment whose extraction yields the non-numeric mark value x. -/
def envBadMark : Env :=
  { ok := fun _ => true,
    extractR := fun _ => { cgroupMark := "x", defaultIP := "", tags := [] } }

/-- An environment whose extraction yields an empty mark value. -/
def envNoMark : Env :=
  { ok := fun _ => true,
    extractR := fun _ => { cgroupMark := "", defaultIP := "", tags := [] } }

/-- An environment in which every collaborator call fails. -/
def envAllFail : Env :=
  { ok := fun _ => false,
    extractR := fun _ => { cgroupMark := "5", defaultIP := "", tags := [] } }

/-- A start event for unit a and process 1. -/
def evA : EventInfo := { PUID := "a", PID := "1", Cgroup := "" }

/-- A start event for unit b and the same process 1. -/
def evB : EventInfo := { PUID := "b", PID := "1", Cgroup := "" }

/-- A stop event delivered through the cgroup path of process 1. -/
def evStopA : EventInfo := { PUID := "", PID := "", Cgroup := "/trireme/1" }

/-- A membership entry for unit a whose only member is process 1. -/
def wCtx : puToPidEntry :=
  { pidlist := ["1"],
    Info := { cgroupMark := "5", defaultIP := "ip", tags := ["t"] },
    publishedContextID := "a5" }

/-- A state in which unit a is active with process 1 and has a record. -/
def wActiveState : MState :=
  { putoPidMap := [("a", wCtx)],
    pidToPU := [("1", "a")],
    contextStore := [("a", DirContent.valid (StoredContext.mk "5" evA))],
    cgroups := ["1"],
    trace := [] }

/-- A state containing only a stored record for unit a. -/
def wStoreOnlyState : MState :=
  { initState with contextStore := [("a", DirContent.valid (StoredContext.mk "5" evA))] }

/-- A state whose process index has a stale entry: process 1 maps to a
unit that has no membership entry. -/
def wStaleState : MState :=
  { initState with pidToPU := [("1", "ghost")] }

/-! ### Helper lemmas about the map operations -/

theorem alookup_mapSet_self {β : Type} (k : String) (v : β) (m : List (String × β)) :
    alookup (mapSet k v m) k = some v := by
  simp [mapSet, alookup]

theorem alookup_eraseKey_self {β : Type} (k : String) (m : List (String × β)) :
    alookup (eraseKey k m) k = none := by
  induction m with
  | nil => rfl
  | cons p t ih =>
    by_cases h : p.1 = k
    · simpa [eraseKey, h] using ih
    · simpa [eraseKey, alookup, h] using ih

theorem eraseKey_cons_hit {β : Type} {k : String} {p : String × β} (hp : p.1 = k)
    (t : List (String × β)) : eraseKey k (p :: t) = eraseKey k t := by
  simp [eraseKey, List.filter_cons, hp]

theorem eraseKey_cons_miss {β : Type} {k : String} {p : String × β} (hp : ¬ p.1 = k)
    (t : List (String × β)) : eraseKey k (p :: t) = p :: eraseKey k t := by
  simp [eraseKey, List.filter_cons, hp]

theorem alookup_eraseKey_ne {β : Type} {k k' : String} (h : k' ≠ k) (m : List (String × β)) :
    alookup (eraseKey k m) k' = alookup m k' := by
  induction m with
  | nil => rfl
  | cons p t ih =>
    by_cases hp : p.1 = k
    · rw [eraseKey_cons_hit hp t, ih]
      have hne : ¬ p.1 = k' := by rw [hp]; exact fun hc => h hc.symm
      simp [alookup, hne]
    · rw [eraseKey_cons_miss hp t]
      by_cases hq : p.1 = k'
      · simp [alookup, hq]
      · simp [alookup, hq, ih]

theorem alookup_mapSet_ne {β : Type} {k k' : String} (h : k' ≠ k) (v : β)
    (m : List (String × β)) : alookup (mapSet k v m) k' = alookup m k' := by
  have hkk : ¬ (k = k') := fun hc => h hc.symm
  rw [mapSet]
  show (if k = k' then some v else alookup (eraseKey k m) k') = alookup m k'
  rw [if_neg hkk]
  exact alookup_eraseKey_ne h m

theorem eraseKey_mapSet {β : Type} (k : String) (v : β) (m : List (String × β)) :
    eraseKey k (mapSet k v m) = eraseKey k m := by
  simp [mapSet, eraseKey, List.filter_filter]

theorem eraseKey_of_alookup_none {β : Type} {k : String} {m : List (String × β)}
    (h : alookup m k = none) : eraseKey k m = m := by
  induction m with
  | nil => rfl
  | cons p t ih =>
    by_cases hp : p.1 = k
    · simp [alookup, hp] at h
    · simp [alookup, hp] at h
      simp [eraseKey, hp] at ih ⊢
      exact ih h

theorem mem_insertStr_self (x : String) (l : List String) : x ∈ insertStr x l := by
  by_cases h : x ∈ l <;> simp [insertStr, h]

theorem mem_insertStr_of_mem {y : String} {l : List String} (x : String) (h : y ∈ l) :
    y ∈ insertStr x l := by
  by_cases hx : x ∈ l <;> simp [insertStr, hx, h]

/-! ### Frame and characterization lemmas for the classifier binding -/

theorem deleteCgroupOp_frame (env : Env) (s : MState) (id : String) :
    (deleteCgroupOp env s id).2.putoPidMap = s.putoPidMap ∧
    (deleteCgroupOp env s id).2.pidToPU = s.pidToPU ∧
    (deleteCgroupOp env s id).2.contextStore = s.contextStore := by
  unfold deleteCgroupOp
  split <;> exact ⟨rfl, rfl, rfl⟩

theorem pls_frame (env : Env) (s : MState) (ev : EventInfo) (rt : PURuntime) :
    (processLinuxServiceStart env s ev rt).2.putoPidMap = s.putoPidMap ∧
    (processLinuxServiceStart env s ev rt).2.pidToPU = s.pidToPU ∧
    (processLinuxServiceStart env s ev rt).2.contextStore = s.contextStore := by
  unfold processLinuxServiceStart deleteCgroupOp
  repeat' split
  all_goals exact ⟨rfl, rfl, rfl⟩

/-- Successful classifier binding: the mark parses, the assignment and the
process add succeed, and the state gains the cgroup plus the three
classifier calls in order. -/
theorem pls_ok_spec (env : Env) (s : MState) (ev : EventInfo) (rt : PURuntime)
    (m : Nat) (n : Int)
    (h1 : env.ok (CallEvent.creategroup ev.PID) = true)
    (h2 : parseUint32 rt.cgroupMark = some m)
    (h3 : env.ok (CallEvent.assignMark ev.PID m) = true)
    (h4 : atoi ev.PID = some n)
    (h5 : env.ok (CallEvent.addProcess ev.PID n) = true) :
    processLinuxServiceStart env s ev rt = (Except.ok (), plsOkState s ev.PID m n) := by
  have hm : ¬ rt.cgroupMark = "" := by
    intro h
    rw [h] at h2
    simp [parseUint32] at h2
  simp [processLinuxServiceStart, plsOkState, h1, hm, h2, h3, h4, h5]

/-! ### Characterization of Start -/

/-- A fully successful first-time Start produces exactly
`startFreshOkState`: the eight steps happen sequentially in the specified
order and the record is written last. -/
theorem start_fresh_ok_spec (env : Env) (s : MState) (ev : EventInfo) (m : Nat) (n : Int)
    (h : alookup s.putoPidMap ev.PUID = none)
    (hx : env.ok (CallEvent.extractCall ev) = true)
    (hsr : env.ok (CallEvent.setRuntime (ev.PUID ++ (env.extractR ev).cgroupMark)
      (env.extractR ev)) = true)
    (hhs : env.ok (CallEvent.handleEvent (ev.PUID ++ (env.extractR ev).cgroupMark)
      PUEventKind.start) = true)
    (h1 : env.ok (CallEvent.creategroup ev.PID) = true)
    (h2 : parseUint32 (env.extractR ev).cgroupMark = some m)
    (h3 : env.ok (CallEvent.assignMark ev.PID m) = true)
    (h4 : atoi ev.PID = some n)
    (h5 : env.ok (CallEvent.addProcess ev.PID n) = true)
    (hw : env.ok (CallEvent.storeWrite ev.PUID) = true) :
    Start env s ev = (Except.ok (), startFreshOkState env s ev m n) := by
  have hm : ¬ (env.extractR ev).cgroupMark = "" := by
    intro hc
    rw [hc] at h2
    simp [parseUint32] at h2
  simp [Start, processLinuxServiceStart, startFreshOkState, StoreContext,
    h, hx, hsr, hhs, h1, hm, h2, h3, h4, h5, hw, List.append_assoc]

/-- Any failed first-time Start other than a store-write failure leaves
both cache indices and the context store exactly as they were. -/
theorem start_fresh_err_frame (env : Env) (s : MState) (ev : EventInfo)
    (h : alookup s.putoPidMap ev.PUID = none) (e : Err)
    (he : (Start env s ev).1 = Except.error e)
    (hns : ∀ id, e ≠ Err.collabFail (CallEvent.storeWrite id)) :
    (Start env s ev).2.putoPidMap = s.putoPidMap ∧
    (Start env s ev).2.pidToPU = s.pidToPU ∧
    (Start env s ev).2.contextStore = s.contextStore := by
  by_cases hx : env.ok (CallEvent.extractCall ev) = true
  · by_cases hsr : env.ok (CallEvent.setRuntime (ev.PUID ++ (env.extractR ev).cgroupMark)
      (env.extractR ev)) = true
    · by_cases hhs : env.ok (CallEvent.handleEvent (ev.PUID ++ (env.extractR ev).cgroupMark)
        PUEventKind.start) = true
      · rcases hp : processLinuxServiceStart env
          { s with trace := s.trace ++ [CallEvent.extractCall ev,
            CallEvent.setRuntime (ev.PUID ++ (env.extractR ev).cgroupMark) (env.extractR ev),
            CallEvent.handleEvent (ev.PUID ++ (env.extractR ev).cgroupMark) PUEventKind.start] }
          ev (env.extractR ev) with ⟨r, s3⟩
        have hfr := pls_frame env
          { s with trace := s.trace ++ [CallEvent.extractCall ev,
            CallEvent.setRuntime (ev.PUID ++ (env.extractR ev).cgroupMark) (env.extractR ev),
            CallEvent.handleEvent (ev.PUID ++ (env.extractR ev).cgroupMark) PUEventKind.start] }
          ev (env.extractR ev)
        rw [hp] at hfr
        cases r with
        | error e2 =>
          have hstep : Start env s ev = (Except.error e2, s3) := by
            simp [Start, h, hx, hsr, hhs, List.append_assoc] at hp ⊢
            rw [hp]
          rw [hstep]
          exact ⟨hfr.1, hfr.2.1, hfr.2.2⟩
        | ok u =>
          by_cases hw : env.ok (CallEvent.storeWrite ev.PUID) = true
          · have hstep : (Start env s ev).1 = Except.ok () := by
              simp [Start, h, hx, hsr, hhs, hw, List.append_assoc] at hp ⊢
              rw [hp]
            rw [hstep] at he
            exact absurd he (by simp)
          · have hwf : env.ok (CallEvent.storeWrite ev.PUID) = false :=
              Bool.not_eq_true _ ▸ (by simpa using hw)
            have hstep : (Start env s ev).1 =
                Except.error (Err.collabFail (CallEvent.storeWrite ev.PUID)) := by
              simp [Start, h, hx, hsr, hhs, hwf, List.append_assoc] at hp ⊢
              rw [hp]
            rw [hstep] at he
            have : e = Err.collabFail (CallEvent.storeWrite ev.PUID) := by
              cases he
              rfl
            exact absurd this (hns ev.PUID)
      · have hf : env.ok (CallEvent.handleEvent (ev.PUID ++ (env.extractR ev).cgroupMark)
          PUEventKind.start) = false := by simpa using hhs
        constructor
        · simp [Start, h, hx, hsr, hf]
        constructor
        · simp [Start, h, hx, hsr, hf]
        · simp [Start, h, hx, hsr, hf]
    · have hf : env.ok (CallEvent.setRuntime (ev.PUID ++ (env.extractR ev).cgroupMark)
        (env.extractR ev)) = false := by simpa using hsr
      constructor
      · simp [Start, h, hx, hf]
      constructor
      · simp [Start, h, hx, hf]
      · simp [Start, h, hx, hf]
  · have hf : env.ok (CallEvent.extractCall ev) = false := by simpa using hx
    constructor
    · simp [Start, h, hf]
    constructor
    · simp [Start, h, hf]
    · simp [Start, h, hf]

/-- A Start for an already-Active unit first performs both cache
insertions and then re-applies the classifier binding with the unit's
already-known runtime info; the call's result is the binding's result. -/
theorem start_existing_spec (env : Env) (s : MState) (ev : EventInfo) (pids : puToPidEntry)
    (h : alookup s.putoPidMap ev.PUID = some pids) :
    Start env s ev =
      processLinuxServiceStart env (startExistingState s ev.PUID ev.PID pids) ev pids.Info := by
  simp [Start, startExistingState, h]

/-! ### Characterization of Stop -/

/-- Stop on the reserved base cgroup path: delete the base path and do
nothing else. -/
theorem stop_base_spec (env : Env) (s : MState) (ev : EventInfo)
    (h : generateContextID ev = Except.ok triremeBaseCgroup) :
    Stop env s ev =
      (Except.ok (), { s with trace := s.trace ++ [CallEvent.deleteBasePath triremeBaseCgroup] }) := by
  simp [Stop, h]

/-- Stop when the resolved contextID has no membership entry: a silent
no-op returning success with a completely unchanged state. -/
theorem stop_noentry_spec (env : Env) (s : MState) (ev : EventInfo) (cid u : String)
    (h : generateContextID ev = Except.ok cid)
    (hb : ¬ cid = triremeBaseCgroup)
    (hpu : alookup s.pidToPU (trimSlashes cid) = some u)
    (hm : alookup s.putoPidMap u = none) :
    Stop env s ev = (Except.ok (), s) := by
  simp [Stop, h, hb, hpu, hm]

/-- Stop removing the last member of a unit performs the full best-effort
teardown in order; only the final cgroup deletion's outcome is returned. -/
theorem stop_teardown_spec (env : Env) (s : MState) (ev : EventInfo) (cid u : String)
    (ctx : puToPidEntry)
    (h : generateContextID ev = Except.ok cid)
    (hb : ¬ cid = triremeBaseCgroup)
    (hpu : alookup s.pidToPU (trimSlashes cid) = some u)
    (hm : alookup s.putoPidMap u = some ctx)
    (hempty : ctx.pidlist.erase (trimSlashes cid) = []) :
    Stop env s ev =
      ((if env.ok (CallEvent.deleteCgroup (trimSlashes cid)) then Except.ok ()
        else Except.error (Err.collabFail (CallEvent.deleteCgroup (trimSlashes cid)))),
       stopTeardownState env s u (trimSlashes cid) ctx) := by
  by_cases hdel : env.ok (CallEvent.deleteCgroup (trimSlashes cid)) = true
  · simp [Stop, h, hb, hpu, hm, hempty, deleteCgroupOp, stopTeardownState, hdel,
      List.append_assoc]
  · have hf : env.ok (CallEvent.deleteCgroup (trimSlashes cid)) = false := by simpa using hdel
    simp [Stop, h, hb, hpu, hm, hempty, deleteCgroupOp, stopTeardownState, hf,
      List.append_assoc]

/-! ### The process-index coherence invariant -/

theorem mapsCoherent_nil : MapsCoherent [] [] := by
  intro pid ctx h
  simp [alookup] at h

theorem mapsCoherent_congr {s' : MState} (P : List (String × puToPidEntry))
    (I : List (String × String)) (hP : s'.putoPidMap = P) (hI : s'.pidToPU = I)
    (h : MapsCoherent P I) : IndexCoherent s' := by
  intro pid ctx hl
  rw [hI] at hl
  rw [hP]
  exact h pid ctx hl

/-- Registering a fresh unit whose entry contains the new pid preserves
coherence. -/
theorem mapsCoherent_fresh {P : List (String × puToPidEntry)} {I : List (String × String)}
    {u pid : String} {e : puToPidEntry}
    (hu : alookup P u = none) (hpid : pid ∈ e.pidlist) (h : MapsCoherent P I) :
    MapsCoherent (mapSet u e P) (mapSet pid u I) := by
  intro p c hl
  by_cases hp : p = pid
  · subst hp
    rw [alookup_mapSet_self] at hl
    cases hl
    exact ⟨e, alookup_mapSet_self u e P, hpid⟩
  · rw [alookup_mapSet_ne hp u I] at hl
    rcases h p c hl with ⟨e', he', hmem⟩
    by_cases hc : c = u
    · subst hc
      rw [hu] at he'
      cases he'
    · exact ⟨e', by rw [alookup_mapSet_ne hc e P]; exact he', hmem⟩

/-- Adding a pid to an existing unit's entry and upserting the index
preserves coherence. -/
theorem mapsCoherent_existing {P : List (String × puToPidEntry)} {I : List (String × String)}
    {u pid : String} {ctx : puToPidEntry}
    (hu : alookup P u = some ctx) (h : MapsCoherent P I) :
    MapsCoherent (mapSet u { ctx with pidlist := insertStr pid ctx.pidlist } P)
      (mapSet pid u I) := by
  intro p c hl
  by_cases hp : p = pid
  · subst hp
    rw [alookup_mapSet_self] at hl
    cases hl
    exact ⟨_, alookup_mapSet_self u _ P, mem_insertStr_self p ctx.pidlist⟩
  · rw [alookup_mapSet_ne hp u I] at hl
    rcases h p c hl with ⟨e', he', hmem⟩
    by_cases hc : c = u
    · subst hc
      rw [hu] at he'
      cases he'
      exact ⟨_, alookup_mapSet_self c _ P, mem_insertStr_of_mem pid hmem⟩
    · exact ⟨e', by rw [alookup_mapSet_ne hc _ P]; exact he', hmem⟩

/-- Removing a pid from a still non-empty entry together with its index
entry preserves coherence. -/
theorem mapsCoherent_stopPartial {P : List (String × puToPidEntry)}
    {I : List (String × String)} {u sp : String} {ctx : puToPidEntry}
    (hu : alookup P u = some ctx) (h : MapsCoherent P I) :
    MapsCoherent (mapSet u { ctx with pidlist := ctx.pidlist.erase sp } P)
      (eraseKey sp I) := by
  intro p c hl
  by_cases hp : p = sp
  · subst hp
    rw [alookup_eraseKey_self] at hl
    cases hl
  · rw [alookup_eraseKey_ne hp I] at hl
    rcases h p c hl with ⟨e', he', hmem⟩
    by_cases hc : c = u
    · subst hc
      rw [hu] at he'
      cases he'
      refine ⟨_, alookup_mapSet_self c _ P, ?_⟩
      exact (List.mem_erase_of_ne hp).mpr hmem
    · exact ⟨e', by rw [alookup_mapSet_ne hc _ P]; exact he', hmem⟩

/-- Tearing a unit down after its member set became empty preserves
coherence. -/
theorem mapsCoherent_stopEmpty {P : List (String × puToPidEntry)}
    {I : List (String × String)} {u sp : String} {ctx : puToPidEntry}
    (hu : alookup P u = some ctx) (hempty : ctx.pidlist.erase sp = [])
    (h : MapsCoherent P I) :
    MapsCoherent (eraseKey u (mapSet u { ctx with pidlist := ctx.pidlist.erase sp } P))
      (eraseKey sp I) := by
  intro p c hl
  by_cases hp : p = sp
  · subst hp
    rw [alookup_eraseKey_self] at hl
    cases hl
  · rw [alookup_eraseKey_ne hp I] at hl
    rcases h p c hl with ⟨e', he', hmem⟩
    by_cases hc : c = u
    · subst hc
      rw [hu] at he'
      cases he'
      have : p ∈ ctx.pidlist.erase sp := (List.mem_erase_of_ne hp).mpr hmem
      rw [hempty] at this
      cases this
    · refine ⟨e', ?_, hmem⟩
      rw [alookup_eraseKey_ne hc, alookup_mapSet_ne hc _ P]
      exact he'

/-! ### Preservation of the invariant by every operation -/

/-- A first-time Start either leaves both cache maps untouched (any
failure up to and including classification) or installs the fresh
membership entry together with the index entry (success, or a failure of
the final record write). -/
theorem start_fresh_maps (env : Env) (s : MState) (ev : EventInfo)
    (h : alookup s.putoPidMap ev.PUID = none) :
    ((Start env s ev).2.putoPidMap = s.putoPidMap ∧
     (Start env s ev).2.pidToPU = s.pidToPU) ∨
    ((Start env s ev).2.putoPidMap = mapSet ev.PUID
        (puToPidEntry.mk [ev.PID] (env.extractR ev)
          (ev.PUID ++ (env.extractR ev).cgroupMark)) s.putoPidMap ∧
     (Start env s ev).2.pidToPU = mapSet ev.PID ev.PUID s.pidToPU) := by
  by_cases hx : env.ok (CallEvent.extractCall ev) = true
  · by_cases hsr : env.ok (CallEvent.setRuntime (ev.PUID ++ (env.extractR ev).cgroupMark)
      (env.extractR ev)) = true
    · by_cases hhs : env.ok (CallEvent.handleEvent (ev.PUID ++ (env.extractR ev).cgroupMark)
        PUEventKind.start) = true
      · rcases hp : processLinuxServiceStart env
          { s with trace := s.trace ++ [CallEvent.extractCall ev,
            CallEvent.setRuntime (ev.PUID ++ (env.extractR ev).cgroupMark) (env.extractR ev),
            CallEvent.handleEvent (ev.PUID ++ (env.extractR ev).cgroupMark) PUEventKind.start] }
          ev (env.extractR ev) with ⟨r, s3⟩
        have hfr := pls_frame env
          { s with trace := s.trace ++ [CallEvent.extractCall ev,
            CallEvent.setRuntime (ev.PUID ++ (env.extractR ev).cgroupMark) (env.extractR ev),
            CallEvent.handleEvent (ev.PUID ++ (env.extractR ev).cgroupMark) PUEventKind.start] }
          ev (env.extractR ev)
        rw [hp] at hfr
        cases r with
        | error e2 =>
          left
          have hstep : (Start env s ev).2 = s3 := by
            simp [Start, h, hx, hsr, hhs, List.append_assoc] at hp ⊢
            rw [hp]
          rw [hstep]
          exact ⟨hfr.1, hfr.2.1⟩
        | ok u =>
          right
          have h31 : s3.putoPidMap = s.putoPidMap := hfr.1
          have h32 : s3.pidToPU = s.pidToPU := hfr.2.1
          by_cases hw : env.ok (CallEvent.storeWrite ev.PUID) = true
          · constructor
            · simp [Start, h, hx, hsr, hhs, hw, List.append_assoc] at hp ⊢
              rw [hp]
              simp only [h31]
            · simp [Start, h, hx, hsr, hhs, hw, List.append_assoc] at hp ⊢
              rw [hp]
              simp only [h32]
          · have hwf : env.ok (CallEvent.storeWrite ev.PUID) = false := by simpa using hw
            constructor
            · simp [Start, h, hx, hsr, hhs, hwf, List.append_assoc] at hp ⊢
              rw [hp]
              simp only [h31]
            · simp [Start, h, hx, hsr, hhs, hwf, List.append_assoc] at hp ⊢
              rw [hp]
              simp only [h32]
      · have hf : env.ok (CallEvent.handleEvent (ev.PUID ++ (env.extractR ev).cgroupMark)
          PUEventKind.start) = false := by simpa using hhs
        left
        exact ⟨by simp [Start, h, hx, hsr, hf], by simp [Start, h, hx, hsr, hf]⟩
    · have hf : env.ok (CallEvent.setRuntime (ev.PUID ++ (env.extractR ev).cgroupMark)
        (env.extractR ev)) = false := by simpa using hsr
      left
      exact ⟨by simp [Start, h, hx, hf], by simp [Start, h, hx, hf]⟩
  · have hf : env.ok (CallEvent.extractCall ev) = false := by simpa using hx
    left
    exact ⟨by simp [Start, h, hf], by simp [Start, h, hf]⟩

/-- Start preserves the coherence invariant. -/
theorem start_preserves (env : Env) (s : MState) (ev : EventInfo)
    (h : IndexCoherent s) : IndexCoherent (Start env s ev).2 := by
  cases hm : alookup s.putoPidMap ev.PUID with
  | none =>
    rcases start_fresh_maps env s ev hm with ⟨h1, h2⟩ | ⟨h1, h2⟩
    · exact mapsCoherent_congr s.putoPidMap s.pidToPU h1 h2 h
    · refine mapsCoherent_congr _ _ h1 h2 ?_
      exact mapsCoherent_fresh hm (by simp) h
  | some pids =>
    rw [start_existing_spec env s ev pids hm]
    have hfr := pls_frame env (startExistingState s ev.PUID ev.PID pids) ev pids.Info
    refine mapsCoherent_congr
      (mapSet ev.PUID { pids with pidlist := insertStr ev.PID pids.pidlist } s.putoPidMap)
      (mapSet ev.PID ev.PUID s.pidToPU)
      (by rw [hfr.1]; rfl) (by rw [hfr.2.1]; rfl) ?_
    exact mapsCoherent_existing hm h

/-- Stop preserves the coherence invariant. -/
theorem stop_preserves (env : Env) (s : MState) (ev : EventInfo)
    (h : IndexCoherent s) : IndexCoherent (Stop env s ev).2 := by
  rcases hg : generateContextID ev with e | cid
  · have : (Stop env s ev).2 = s := by simp [Stop, hg]
    rw [this]
    exact h
  · by_cases hb : cid = triremeBaseCgroup
    · refine mapsCoherent_congr s.putoPidMap s.pidToPU ?_ ?_ h <;> simp [Stop, hg, hb]
    · have hcore : ∀ u : String,
        (match alookup s.pidToPU (trimSlashes cid) with
         | some puid => puid
         | none => cid) = u →
        IndexCoherent (Stop env s ev).2 := by
        intro u hu
        cases hm : alookup s.putoPidMap u with
        | none =>
          have : (Stop env s ev).2 = s := by
            simp [Stop, hg, hb]
            rw [hu, hm]
          rw [this]
          exact h
        | some ctx =>
          by_cases hne : ctx.pidlist.erase (trimSlashes cid) = []
          · refine mapsCoherent_congr
              (eraseKey u (mapSet u { ctx with pidlist := ctx.pidlist.erase (trimSlashes cid) }
                s.putoPidMap))
              (eraseKey (trimSlashes cid) s.pidToPU) ?_ ?_
              (mapsCoherent_stopEmpty hm hne h)
            · simp only [Stop, hg]
              rw [if_neg hb, hu]
              simp only [hm]
              rw [if_neg (not_not_intro hne)]
              exact (deleteCgroupOp_frame env _ _).1
            · simp only [Stop, hg]
              rw [if_neg hb, hu]
              simp only [hm]
              rw [if_neg (not_not_intro hne)]
              exact (deleteCgroupOp_frame env _ _).2.1
          · refine mapsCoherent_congr
              (mapSet u { ctx with pidlist := ctx.pidlist.erase (trimSlashes cid) }
                s.putoPidMap)
              (eraseKey (trimSlashes cid) s.pidToPU) ?_ ?_
              (mapsCoherent_stopPartial hm h)
            · simp only [Stop, hg]
              rw [if_neg hb, hu]
              simp only [hm]
              rw [if_pos hne]
              exact (deleteCgroupOp_frame env _ _).1
            · simp only [Stop, hg]
              rw [if_neg hb, hu]
              simp only [hm]
              rw [if_pos hne]
              exact (deleteCgroupOp_frame env _ _).2.1
      exact hcore _ rfl

/-- Create changes no cache map. -/
theorem create_preserves (env : Env) (s : MState) (ev : EventInfo)
    (h : IndexCoherent s) : IndexCoherent (Create env s ev).2 := by
  refine mapsCoherent_congr s.putoPidMap s.pidToPU ?_ ?_ h <;>
    simp [Create, apply_ite]

/-- Pause changes no cache map. -/
theorem pause_preserves (env : Env) (s : MState) (ev : EventInfo)
    (h : IndexCoherent s) : IndexCoherent (Pause env s ev).2 := by
  rcases hg : generateContextID ev with e | cid <;>
    refine mapsCoherent_congr s.putoPidMap s.pidToPU ?_ ?_ h <;>
    simp [Pause, hg, apply_ite]

/-- The phase-1 cgroup cleanup changes no cache map. -/
theorem buildMarkMapAux_frame (env : Env) :
    ∀ (live : List LiveCgroup) (acc : List (String × List String)) (s : MState),
      (buildMarkMapAux env acc s live).2.putoPidMap = s.putoPidMap ∧
      (buildMarkMapAux env acc s live).2.pidToPU = s.pidToPU := by
  intro live
  induction live with
  | nil => intro acc s; exact ⟨rfl, rfl⟩
  | cons cg rest ih =>
    intro acc s
    by_cases hpe : cg.procs.isEmpty = true
    · have hfr := deleteCgroupOp_frame env s cg.name
      have := ih acc (deleteCgroupOp env s cg.name).2
      constructor
      · rw [buildMarkMapAux]
        simp only [hpe, if_true]
        rw [this.1, hfr.1]
      · rw [buildMarkMapAux]
        simp only [hpe, if_true]
        rw [this.2, hfr.2.1]
    · have hpf : cg.procs.isEmpty = false := by simpa using hpe
      cases hl : alookup acc cg.mark with
      | none =>
        have := ih (acc ++ [(cg.mark, cg.procs)]) s
        constructor
        · rw [buildMarkMapAux]
          simp only [hpf, Bool.false_eq_true, if_false, hl]
          exact this.1
        · rw [buildMarkMapAux]
          simp only [hpf, Bool.false_eq_true, if_false, hl]
          exact this.2
      | some l =>
        have := ih (mapSet cg.mark (l ++ cg.procs) acc) s
        constructor
        · rw [buildMarkMapAux]
          simp only [hpf, Bool.false_eq_true, if_false, hl]
          exact this.1
        · rw [buildMarkMapAux]
          simp only [hpf, Bool.false_eq_true, if_false, hl]
          exact this.2

/-- The replay loop preserves coherence. -/
theorem resyncReplay_preserves (env : Env) (base : EventInfo) :
    ∀ (pids : List String) (s : MState), IndexCoherent s →
      IndexCoherent (resyncReplay env base s pids) := by
  intro pids
  induction pids with
  | nil => intro s h; exact h
  | cons pid rest ih =>
    intro s h
    rw [resyncReplay]
    exact ih _ (start_preserves env s { base with PID := pid } h)

/-- One resync step preserves coherence. -/
theorem resyncStep_preserves (env : Env) (mark2pid : List (String × List String))
    (s : MState) (id : String) (h : IndexCoherent s) :
    IndexCoherent (resyncStep env mark2pid s id) := by
  rcases hg : GetContextInfo s.contextStore ("/" ++ id) with ⟨r, fs'⟩
  cases r with
  | error e =>
    refine mapsCoherent_congr s.putoPidMap s.pidToPU ?_ ?_ h <;>
      simp [resyncStep, hg]
  | ok storedPU =>
    cases hl : alookup mark2pid storedPU.MarkVal with
    | none =>
      refine mapsCoherent_congr s.putoPidMap s.pidToPU ?_ ?_ h <;>
        simp [resyncStep, hg, hl]
    | some pids =>
      have hstep : resyncStep env mark2pid s id =
          resyncReplay env storedPU.eventInfo { s with contextStore := fs' } pids := by
        simp [resyncStep, hg, hl]
      rw [hstep]
      refine resyncReplay_preserves env storedPU.eventInfo pids _ ?_
      exact mapsCoherent_congr s.putoPidMap s.pidToPU rfl rfl h

/-- The resync walk preserves coherence. -/
theorem resyncWalk_preserves (env : Env) (mark2pid : List (String × List String)) :
    ∀ (ids : List String) (s : MState), IndexCoherent s →
      IndexCoherent (resyncWalk env mark2pid s ids) := by
  intro ids
  induction ids with
  | nil => intro s h; exact h
  | cons id rest ih =>
    intro s h
    rw [resyncWalk]
    exact ih _ (resyncStep_preserves env mark2pid s id h)

/-- ReSync preserves coherence. -/
theorem resync_preserves (env : Env) (s : MState) (live : List LiveCgroup)
    (h : IndexCoherent s) : IndexCoherent (ReSync env s live) := by
  rw [ReSync]
  refine resyncWalk_preserves env _ _ _ ?_
  have hfr := buildMarkMapAux_frame env live [] s
  exact mapsCoherent_congr s.putoPidMap s.pidToPU hfr.1 hfr.2 h

/-- Every operation preserves coherence. -/
theorem applyOp_preserves (env : Env) (s : MState) (op : Op)
    (h : IndexCoherent s) : IndexCoherent (applyOp env s op) := by
  cases op with
  | create ev => exact create_preserves env s ev h
  | start ev => exact start_preserves env s ev h
  | stop ev => exact stop_preserves env s ev h
  | pause ev => exact pause_preserves env s ev h
  | destroy ev => exact h
  | resync live => exact resync_preserves env s live h

/-- Coherence holds along any run. -/
theorem runOps_coherent :
    ∀ (l : List (Env × Op)) (s : MState), IndexCoherent s → IndexCoherent (runOps s l) := by
  intro l
  induction l with
  | nil => intro s h; exact h
  | cons p rest ih =>
    intro s h
    rw [runOps]
    exact ih _ (applyOp_preserves p.1 s p.2 h)

/-- The empty state is coherent. -/
theorem initState_coherent : IndexCoherent initState := by
  intro pid ctx h
  simp [initState, alookup] at h

/-! ### Inverse lemmas: what a success implies -/

/-- A successful classifier binding implies every sub-step succeeded. -/
theorem pls_ok_inverse (env : Env) (s : MState) (ev : EventInfo) (rt : PURuntime)
    (hok : (processLinuxServiceStart env s ev rt).1 = Except.ok ()) :
    env.ok (CallEvent.creategroup ev.PID) = true ∧
    ∃ m, parseUint32 rt.cgroupMark = some m ∧
      env.ok (CallEvent.assignMark ev.PID m) = true ∧
      ∃ n, atoi ev.PID = some n ∧ env.ok (CallEvent.addProcess ev.PID n) = true := by
  by_cases h1 : env.ok (CallEvent.creategroup ev.PID) = true
  · refine ⟨h1, ?_⟩
    by_cases hm : rt.cgroupMark = ""
    · exfalso
      simp [processLinuxServiceStart, h1, hm, deleteCgroupOp, apply_ite] at hok
    · cases h2 : parseUint32 rt.cgroupMark with
      | none => exfalso; simp [processLinuxServiceStart, h1, hm, h2] at hok
      | some m =>
        refine ⟨m, rfl, ?_⟩
        by_cases h3 : env.ok (CallEvent.assignMark ev.PID m) = true
        · refine ⟨h3, ?_⟩
          cases h4 : atoi ev.PID with
          | none => exfalso; simp [processLinuxServiceStart, h1, hm, h2, h3, h4] at hok
          | some n =>
            refine ⟨n, rfl, ?_⟩
            by_cases h5 : env.ok (CallEvent.addProcess ev.PID n) = true
            · exact h5
            · exfalso
              have h5f : env.ok (CallEvent.addProcess ev.PID n) = false := by simpa using h5
              simp [processLinuxServiceStart, h1, hm, h2, h3, h4, h5f, deleteCgroupOp,
                apply_ite] at hok
        · exfalso
          have h3f : env.ok (CallEvent.assignMark ev.PID m) = false := by simpa using h3
          simp [processLinuxServiceStart, h1, hm, h2, h3f, deleteCgroupOp, apply_ite] at hok
  · exfalso
    have h1f : env.ok (CallEvent.creategroup ev.PID) = false := by simpa using h1
    simp [processLinuxServiceStart, h1f] at hok

/-- A successful first-time Start implies every one of its steps
succeeded. -/
theorem start_fresh_ok_inverse (env : Env) (s : MState) (ev : EventInfo)
    (h : alookup s.putoPidMap ev.PUID = none)
    (hok : (Start env s ev).1 = Except.ok ()) :
    env.ok (CallEvent.extractCall ev) = true ∧
    env.ok (CallEvent.setRuntime (ev.PUID ++ (env.extractR ev).cgroupMark)
      (env.extractR ev)) = true ∧
    env.ok (CallEvent.handleEvent (ev.PUID ++ (env.extractR ev).cgroupMark)
      PUEventKind.start) = true ∧
    env.ok (CallEvent.creategroup ev.PID) = true ∧
    (∃ m, parseUint32 (env.extractR ev).cgroupMark = some m ∧
      env.ok (CallEvent.assignMark ev.PID m) = true ∧
      ∃ n, atoi ev.PID = some n ∧ env.ok (CallEvent.addProcess ev.PID n) = true) ∧
    env.ok (CallEvent.storeWrite ev.PUID) = true := by
  by_cases hx : env.ok (CallEvent.extractCall ev) = true
  · by_cases hsr : env.ok (CallEvent.setRuntime (ev.PUID ++ (env.extractR ev).cgroupMark)
      (env.extractR ev)) = true
    · by_cases hhs : env.ok (CallEvent.handleEvent (ev.PUID ++ (env.extractR ev).cgroupMark)
        PUEventKind.start) = true
      · rcases hp : processLinuxServiceStart env
          { s with trace := s.trace ++ [CallEvent.extractCall ev,
            CallEvent.setRuntime (ev.PUID ++ (env.extractR ev).cgroupMark) (env.extractR ev),
            CallEvent.handleEvent (ev.PUID ++ (env.extractR ev).cgroupMark) PUEventKind.start] }
          ev (env.extractR ev) with ⟨r, s3⟩
        cases r with
        | error e2 =>
          exfalso
          have : (Start env s ev).1 = Except.error e2 := by
            simp [Start, h, hx, hsr, hhs, List.append_assoc] at hp ⊢
            rw [hp]
          rw [this] at hok
          cases hok
        | ok uu =>
          have hcls := pls_ok_inverse env _ ev (env.extractR ev) (by rw [hp])
          by_cases hw : env.ok (CallEvent.storeWrite ev.PUID) = true
          · exact ⟨hx, hsr, hhs, hcls.1, hcls.2, hw⟩
          · exfalso
            have hwf : env.ok (CallEvent.storeWrite ev.PUID) = false := by simpa using hw
            have : (Start env s ev).1 =
                Except.error (Err.collabFail (CallEvent.storeWrite ev.PUID)) := by
              simp [Start, h, hx, hsr, hhs, hwf, List.append_assoc] at hp ⊢
              rw [hp]
            rw [this] at hok
            cases hok
      · exfalso
        have hf : env.ok (CallEvent.handleEvent (ev.PUID ++ (env.extractR ev).cgroupMark)
          PUEventKind.start) = false := by simpa using hhs
        simp [Start, h, hx, hsr, hf] at hok
    · exfalso
      have hf : env.ok (CallEvent.setRuntime (ev.PUID ++ (env.extractR ev).cgroupMark)
        (env.extractR ev)) = false := by simpa using hsr
      simp [Start, h, hx, hf] at hok
  · exfalso
    have hf : env.ok (CallEvent.extractCall ev) = false := by simpa using hx
    simp [Start, h, hf] at hok

/-- A successful store read implies the record is present, valid, and the
filesystem was not changed. -/
theorem getContextInfo_ok_inverse (fs : StoreFS) (id : String) (storedPU : StoredContext)
    (fs' : StoreFS) (h : GetContextInfo fs id = (Except.ok storedPU, fs')) :
    alookup fs (storeKey id) = some (DirContent.valid storedPU) ∧ fs' = fs := by
  cases hl : alookup fs (storeKey id) with
  | none => simp [GetContextInfo, hl] at h
  | some c =>
    cases c with
    | missingFile => simp [GetContextInfo, hl] at h
    | corrupt => simp [GetContextInfo, hl] at h
    | valid rec =>
      simp [GetContextInfo, hl] at h
      exact ⟨by rw [h.1], h.2.symm⟩

/-- Inserting a pid into a cgroup list it was absent from and erasing it
again restores the list. -/
theorem insertStr_erase_not_mem {x : String} {l : List String} (h : x ∉ l) :
    (insertStr x l).erase x = l := by
  rw [insertStr, if_neg h]
  exact List.erase_cons_head x l

/-! ### Claim theorems -/

/-- C8: the context store's get fails when no directory exists for the id;
on a deserialization failure it removes the id's stored state before
returning the error, so the directory no longer exists afterwards; remove
fails with a not-found error when the directory does not exist and
otherwise deletes it. -/
theorem C8_contextstore_get_remove (fs : StoreFS) (id : String) :
    (alookup fs (storeKey id) = none →
      (GetContextInfo fs id).1 = Except.error (Err.unknownContextID id) ∧
      (GetContextInfo fs id).2 = fs ∧
      (RemoveContext fs id).1 = Except.error (Err.unknownContextID id) ∧
      (RemoveContext fs id).2 = fs) ∧
    (alookup fs (storeKey id) = some DirContent.corrupt →
      (GetContextInfo fs id).1 = Except.error (Err.corruptRecord id) ∧
      alookup (GetContextInfo fs id).2 (storeKey id) = none) ∧
    (∀ c, alookup fs (storeKey id) = some c →
      (RemoveContext fs id).1 = Except.ok () ∧
      alookup (RemoveContext fs id).2 (storeKey id) = none) := by
  refine ⟨?_, ?_, ?_⟩
  · intro h
    exact ⟨by simp [GetContextInfo, h], by simp [GetContextInfo, h],
      by simp [RemoveContext, h], by simp [RemoveContext, h]⟩
  · intro h
    refine ⟨by simp [GetContextInfo, h], ?_⟩
    simp [GetContextInfo, h]
    exact alookup_eraseKey_self _ _
  · intro c h
    refine ⟨by simp [RemoveContext, h], ?_⟩
    simp [RemoveContext, h]
    exact alookup_eraseKey_self _ _

/-- C8 witness: a corrupt record for unit a is reported as an error and
its directory is gone afterwards. -/
theorem C8_contextstore_get_remove_witness :
    (GetContextInfo [("a", DirContent.corrupt)] "a").1 =
      Except.error (Err.corruptRecord "a") ∧
    alookup (GetContextInfo [("a", DirContent.corrupt)] "a").2 (storeKey "a") = none :=
  (C8_contextstore_get_remove [("a", DirContent.corrupt)] "a").2.1 (by decide)

/-- C9: a Stop that resolves to the reserved base cgroup path only deletes
the base path: it returns success, leaves both cache indices, the context
store and the per-process cgroups untouched, and makes no policy-handler
call — its whole trace extension is the single base-path deletion. -/
theorem C9_stop_base_path (env : Env) (s : MState) (ev : EventInfo)
    (h : generateContextID ev = Except.ok triremeBaseCgroup) :
    (Stop env s ev).1 = Except.ok () ∧
    (Stop env s ev).2.putoPidMap = s.putoPidMap ∧
    (Stop env s ev).2.pidToPU = s.pidToPU ∧
    (Stop env s ev).2.contextStore = s.contextStore ∧
    (Stop env s ev).2.cgroups = s.cgroups ∧
    (Stop env s ev).2.trace = s.trace ++ [CallEvent.deleteBasePath triremeBaseCgroup] := by
  rw [stop_base_spec env s ev h]
  exact ⟨rfl, rfl, rfl, rfl, rfl, rfl⟩

/-- C9 witness: stopping with unit id trireme resolves to the base path
and only the base deletion happens. -/
theorem C9_stop_base_path_witness :
    (Stop envAllOk wActiveState (EventInfo.mk "trireme" "" "")).1 = Except.ok () ∧
    (Stop envAllOk wActiveState (EventInfo.mk "trireme" "" "")).2.putoPidMap =
      wActiveState.putoPidMap ∧
    (Stop envAllOk wActiveState (EventInfo.mk "trireme" "" "")).2.pidToPU =
      wActiveState.pidToPU ∧
    (Stop envAllOk wActiveState (EventInfo.mk "trireme" "" "")).2.contextStore =
      wActiveState.contextStore ∧
    (Stop envAllOk wActiveState (EventInfo.mk "trireme" "" "")).2.cgroups =
      wActiveState.cgroups ∧
    (Stop envAllOk wActiveState (EventInfo.mk "trireme" "" "")).2.trace =
      wActiveState.trace ++ [CallEvent.deleteBasePath triremeBaseCgroup] :=
  C9_stop_base_path envAllOk wActiveState (EventInfo.mk "trireme" "" "") (by decide)

/-- C10: a Stop whose stopped pid is in the process index but whose owning
unit has no membership entry returns success and changes nothing; in
particular the stale index entry survives. -/
theorem C10_stop_stale_index (env : Env) (s : MState) (ev : EventInfo) (cid u : String)
    (hg : generateContextID ev = Except.ok cid)
    (hb : ¬ cid = triremeBaseCgroup)
    (hpu : alookup s.pidToPU (trimSlashes cid) = some u)
    (hm : alookup s.putoPidMap u = none) :
    Stop env s ev = (Except.ok (), s) ∧
    alookup (Stop env s ev).2.pidToPU (trimSlashes cid) = some u := by
  have hstep := stop_noentry_spec env s ev cid u hg hb hpu hm
  refine ⟨hstep, ?_⟩
  rw [hstep]
  exact hpu

/-- C10 witness: a stale index entry mapping process 1 to a unit without
a membership entry makes Stop a complete no-op. -/
theorem C10_stop_stale_index_witness :
    Stop envAllOk wStaleState evStopA = (Except.ok (), wStaleState) ∧
    alookup (Stop envAllOk wStaleState evStopA).2.pidToPU (trimSlashes "/1") = some "ghost" :=
  C10_stop_stale_index envAllOk wStaleState evStopA "/1" "ghost"
    (by decide) (by decide) (by decide) (by decide)

/-- C7: a Start for an already-Active unit adds the pid to the member set
and to the process index before re-applying the classifier binding with
the unit's already-known runtime info; a binding failure is returned but
the two cache insertions persist. -/
theorem C7_start_active_unit (env : Env) (s : MState) (ev : EventInfo) (pids : puToPidEntry)
    (h : alookup s.putoPidMap ev.PUID = some pids) :
    Start env s ev =
      processLinuxServiceStart env (startExistingState s ev.PUID ev.PID pids) ev pids.Info ∧
    alookup (Start env s ev).2.putoPidMap ev.PUID =
      some { pids with pidlist := insertStr ev.PID pids.pidlist } ∧
    alookup (Start env s ev).2.pidToPU ev.PID = some ev.PUID ∧
    (∀ e, (Start env s ev).1 = Except.error e →
      alookup (Start env s ev).2.putoPidMap ev.PUID =
        some { pids with pidlist := insertStr ev.PID pids.pidlist } ∧
      alookup (Start env s ev).2.pidToPU ev.PID = some ev.PUID) := by
  have hspec := start_existing_spec env s ev pids h
  have hfr := pls_frame env (startExistingState s ev.PUID ev.PID pids) ev pids.Info
  have h1 : (Start env s ev).2.putoPidMap =
      mapSet ev.PUID { pids with pidlist := insertStr ev.PID pids.pidlist } s.putoPidMap := by
    rw [hspec, hfr.1]
    rfl
  have h2 : (Start env s ev).2.pidToPU = mapSet ev.PID ev.PUID s.pidToPU := by
    rw [hspec, hfr.2.1]
    rfl
  refine ⟨hspec, ?_, ?_, ?_⟩
  · rw [h1]
    exact alookup_mapSet_self _ _ _
  · rw [h2]
    exact alookup_mapSet_self _ _ _
  · intro e _
    constructor
    · rw [h1]
      exact alookup_mapSet_self _ _ _
    · rw [h2]
      exact alookup_mapSet_self _ _ _

/-- C7 witness: starting process 2 under the active unit a with a failing
classifier still leaves both insertions in place and surfaces the error. -/
theorem C7_start_active_unit_witness :
    alookup (Start envAllFail wActiveState (EventInfo.mk "a" "2" "")).2.putoPidMap "a" =
      some { wCtx with pidlist := insertStr "2" wCtx.pidlist } ∧
    alookup (Start envAllFail wActiveState (EventInfo.mk "a" "2" "")).2.pidToPU "2" =
      some "a" :=
  ((C7_start_active_unit envAllFail wActiveState (EventInfo.mk "a" "2" "") wCtx
    (by decide)).2.2.2 (Err.collabFail (CallEvent.creategroup "2")) (by decide))

/-- C1 (amended): when the compensating delete call itself succeeds, the
cgroup created for the pid is deleted before the error returns in the
empty-mark, failed-mark-assignment and failed-process-add cases — the
empty-mark case returning the no-mark error — but a non-numeric mark value
returns the parse error with the cgroup left in place; and no membership
entry is created by any failed first-time Start short of the record
write. -/
theorem C1_classifier_compensation (env : Env) (s : MState) (ev : EventInfo) (rt : PURuntime)
    (hcg : env.ok (CallEvent.creategroup ev.PID) = true)
    (hdel : env.ok (CallEvent.deleteCgroup ev.PID) = true)
    (hfresh : ev.PID ∉ s.cgroups) :
    (rt.cgroupMark = "" →
      (processLinuxServiceStart env s ev rt).1 = Except.error Err.noMark ∧
      ev.PID ∉ (processLinuxServiceStart env s ev rt).2.cgroups) ∧
    (∀ m, parseUint32 rt.cgroupMark = some m →
      env.ok (CallEvent.assignMark ev.PID m) = false →
      (processLinuxServiceStart env s ev rt).1 =
        Except.error (Err.collabFail (CallEvent.assignMark ev.PID m)) ∧
      ev.PID ∉ (processLinuxServiceStart env s ev rt).2.cgroups) ∧
    (∀ m n, parseUint32 rt.cgroupMark = some m →
      env.ok (CallEvent.assignMark ev.PID m) = true →
      atoi ev.PID = some n →
      env.ok (CallEvent.addProcess ev.PID n) = false →
      (processLinuxServiceStart env s ev rt).1 =
        Except.error (Err.collabFail (CallEvent.addProcess ev.PID n)) ∧
      ev.PID ∉ (processLinuxServiceStart env s ev rt).2.cgroups) ∧
    (¬ rt.cgroupMark = "" → parseUint32 rt.cgroupMark = none →
      (processLinuxServiceStart env s ev rt).1 =
        Except.error (Err.markNotNumeric rt.cgroupMark) ∧
      ev.PID ∈ (processLinuxServiceStart env s ev rt).2.cgroups) ∧
    (∀ e, alookup s.putoPidMap ev.PUID = none →
      (Start env s ev).1 = Except.error e →
      (∀ id, e ≠ Err.collabFail (CallEvent.storeWrite id)) →
      alookup (Start env s ev).2.putoPidMap ev.PUID = none) := by
  have hmark : ¬ rt.cgroupMark = "" → parseUint32 rt.cgroupMark = none →
      (processLinuxServiceStart env s ev rt).1 =
        Except.error (Err.markNotNumeric rt.cgroupMark) ∧
      ev.PID ∈ (processLinuxServiceStart env s ev rt).2.cgroups := by
    intro hne hnone
    constructor
    · simp [processLinuxServiceStart, hcg, hne, hnone]
    · simp [processLinuxServiceStart, hcg, hne, hnone]
      exact mem_insertStr_self ev.PID s.cgroups
  refine ⟨?_, ?_, ?_, hmark, ?_⟩
  · intro hempty
    constructor
    · simp [processLinuxServiceStart, hcg, hempty]
    · simp [processLinuxServiceStart, hcg, hempty, deleteCgroupOp, hdel]
      rw [insertStr_erase_not_mem hfresh]
      exact hfresh
  · intro m hm hfail
    have hne : ¬ rt.cgroupMark = "" := by
      intro hc
      rw [hc] at hm
      simp [parseUint32] at hm
    constructor
    · simp [processLinuxServiceStart, hcg, hne, hm, hfail]
    · simp [processLinuxServiceStart, hcg, hne, hm, hfail, deleteCgroupOp, hdel]
      rw [insertStr_erase_not_mem hfresh]
      exact hfresh
  · intro m n hm hassign hn hfail
    have hne : ¬ rt.cgroupMark = "" := by
      intro hc
      rw [hc] at hm
      simp [parseUint32] at hm
    constructor
    · simp [processLinuxServiceStart, hcg, hne, hm, hassign, hn, hfail]
    · simp [processLinuxServiceStart, hcg, hne, hm, hassign, hn, hfail, deleteCgroupOp, hdel]
      rw [insertStr_erase_not_mem hfresh]
      exact hfresh
  · intro e hfirst herr hns
    rw [(start_fresh_err_frame env s ev hfirst e herr hns).1]
    exact hfirst

/-- C1 witness: with an empty mark the binding fails with the no-mark
error and the just-created cgroup for process 1 is gone again. -/
theorem C1_classifier_compensation_witness :
    (processLinuxServiceStart envNoMark initState evA
      (PURuntime.mk "" "" [])).1 = Except.error Err.noMark ∧
    "1" ∉ (processLinuxServiceStart envNoMark initState evA
      (PURuntime.mk "" "" [])).2.cgroups :=
  (C1_classifier_compensation envNoMark initState evA (PURuntime.mk "" "" [])
    (by decide) (by decide) (by decide)).1 rfl

/-- C1 counterexample: a Start whose extracted mark value is the
non-numeric string x fails after the cgroup create succeeded, yet the
cgroup for process 1 is left behind — refuting the claim that every
binding failure after a successful create deletes the cgroup. -/
theorem C1_counterexample_mark_parse_leak :
    (Start envBadMark initState evA).1 = Except.error (Err.markNotNumeric "x") ∧
    "1" ∈ (Start envBadMark initState evA).2.cgroups := by
  decide

/-- C2: a first-time Start runs extraction, runtime registration under the
published identifier (the contextID concatenated with the cgroup mark),
activation, the classifier binding, the telemetry record, both cache
insertions and finally the record write, in that order (the trace of
`startFreshOkState`); and any failure up to and including classification
leaves no membership entry, no process-index entry and no stored record. -/
theorem C2_first_time_sequence (env : Env) (s : MState) (ev : EventInfo)
    (h : alookup s.putoPidMap ev.PUID = none) :
    ((Start env s ev).1 = Except.ok () →
      ∃ m n, parseUint32 (env.extractR ev).cgroupMark = some m ∧ atoi ev.PID = some n ∧
        Start env s ev = (Except.ok (), startFreshOkState env s ev m n)) ∧
    (∀ e, (Start env s ev).1 = Except.error e →
      (∀ id, e ≠ Err.collabFail (CallEvent.storeWrite id)) →
      (Start env s ev).2.putoPidMap = s.putoPidMap ∧
      (Start env s ev).2.pidToPU = s.pidToPU ∧
      (Start env s ev).2.contextStore = s.contextStore) := by
  constructor
  · intro hok
    obtain ⟨hx, hsr, hhs, hcg, ⟨m, h2, h3, n, h4, h5⟩, hw⟩ :=
      start_fresh_ok_inverse env s ev h hok
    exact ⟨m, n, h2, h4, start_fresh_ok_spec env s ev m n h hx hsr hhs hcg h2 h3 h4 h5 hw⟩
  · intro e he hns
    exact start_fresh_err_frame env s ev h e he hns

/-- C2 witness: the all-success environment performs the whole first-time
sequence for unit a and process 1. -/
theorem C2_first_time_sequence_witness :
    ∃ m n, parseUint32 (envAllOk.extractR evA).cgroupMark = some m ∧ atoi evA.PID = some n ∧
      Start envAllOk initState evA =
        (Except.ok (), startFreshOkState envAllOk initState evA m n) :=
  (C2_first_time_sequence envAllOk initState evA (by decide)).1 (by decide)

/-- C3 counterexample: after Start of unit a with process 1 and Start of
unit b with the same process 1, the process index maps 1 to b while unit
a's membership entry still contains 1, so the exclusivity half of the
claimed invariant fails in a reachable state. -/
theorem C3_counterexample_shared_pid :
    ¬ ClaimedPidInvariant (runOps initState
      [(envAllOk, Op.start evA), (envAllOk, Op.start evB)]) := by
  intro hinv
  have h := hinv.2 "1" "b" "a"
    (puToPidEntry.mk ["1"] (PURuntime.mk "5" "ip" ["t"]) "a5")
    (by decide) (by decide) (by decide)
  exact absurd h (by decide)

/-- C3 (amended): in every state reachable from the empty caches, every
indexed process identifier maps to a contextID whose membership entry
exists and contains it (the exclusivity half of the claim fails, see the
counterexample). -/
theorem C3_index_coherent (l : List (Env × Op)) : IndexCoherent (runOps initState l) :=
  runOps_coherent l initState initState_coherent

/-- C3 witness: after a single successful Start the indexed process 1 is
found in unit a's membership entry. -/
theorem C3_index_coherent_witness :
    ∃ e, alookup (runOps initState [(envAllOk, Op.start evA)]).putoPidMap "a" = some e ∧
      "1" ∈ e.pidlist :=
  C3_index_coherent [(envAllOk, Op.start evA)] "1" "a" (by decide)

/-- C6: a Stop that removes a unit's last member performs, in order and
regardless of which collaborator calls fail, the policy Stop, the entry
removal, the record removal, the policy Destroy and the cgroup deletion;
exactly one Stop and one Destroy are issued for the published identifier,
and only the final cgroup deletion's result is surfaced. -/
theorem C6_last_member_teardown (env : Env) (s : MState) (ev : EventInfo) (cid u : String)
    (ctx : puToPidEntry)
    (hg : generateContextID ev = Except.ok cid)
    (hb : ¬ cid = triremeBaseCgroup)
    (hpu : alookup s.pidToPU (trimSlashes cid) = some u)
    (hm : alookup s.putoPidMap u = some ctx)
    (hempty : ctx.pidlist.erase (trimSlashes cid) = []) :
    (Stop env s ev).2.trace = s.trace ++
      [CallEvent.handleEvent ctx.publishedContextID PUEventKind.stop,
       CallEvent.storeRemove u,
       CallEvent.handleEvent ctx.publishedContextID PUEventKind.destroy,
       CallEvent.deleteCgroup (trimSlashes cid)] ∧
    alookup (Stop env s ev).2.putoPidMap u = none ∧
    (Stop env s ev).2.contextStore = (RemoveContext s.contextStore u).2 ∧
    (Stop env s ev).2.trace.count
        (CallEvent.handleEvent ctx.publishedContextID PUEventKind.stop) =
      s.trace.count (CallEvent.handleEvent ctx.publishedContextID PUEventKind.stop) + 1 ∧
    (Stop env s ev).2.trace.count
        (CallEvent.handleEvent ctx.publishedContextID PUEventKind.destroy) =
      s.trace.count (CallEvent.handleEvent ctx.publishedContextID PUEventKind.destroy) + 1 ∧
    (Stop env s ev).1 = (if env.ok (CallEvent.deleteCgroup (trimSlashes cid)) then Except.ok ()
      else Except.error (Err.collabFail (CallEvent.deleteCgroup (trimSlashes cid)))) := by
  have hstep := stop_teardown_spec env s ev cid u ctx hg hb hpu hm hempty
  have htr : (Stop env s ev).2.trace = s.trace ++
      [CallEvent.handleEvent ctx.publishedContextID PUEventKind.stop,
       CallEvent.storeRemove u,
       CallEvent.handleEvent ctx.publishedContextID PUEventKind.destroy,
       CallEvent.deleteCgroup (trimSlashes cid)] := by
    rw [hstep]
    rfl
  refine ⟨htr, ?_, ?_, ?_, ?_, ?_⟩
  · rw [hstep]
    exact alookup_eraseKey_self _ _
  · rw [hstep]
    rfl
  · rw [htr]
    simp [List.count_append, List.count_cons]
  · rw [htr]
    simp [List.count_append, List.count_cons]
  · rw [hstep]

/-- C6 witness: even with every collaborator call failing, the teardown of
unit a attempts all five steps in order and issues exactly one
Stop-then-Destroy pair. -/
theorem C6_last_member_teardown_witness :
    (Stop envAllFail wActiveState evStopA).2.trace = wActiveState.trace ++
      [CallEvent.handleEvent wCtx.publishedContextID PUEventKind.stop,
       CallEvent.storeRemove "a",
       CallEvent.handleEvent wCtx.publishedContextID PUEventKind.destroy,
       CallEvent.deleteCgroup (trimSlashes "/1")] ∧
    alookup (Stop envAllFail wActiveState evStopA).2.putoPidMap "a" = none ∧
    (Stop envAllFail wActiveState evStopA).2.contextStore =
      (RemoveContext wActiveState.contextStore "a").2 ∧
    (Stop envAllFail wActiveState evStopA).2.trace.count
        (CallEvent.handleEvent wCtx.publishedContextID PUEventKind.stop) =
      wActiveState.trace.count
        (CallEvent.handleEvent wCtx.publishedContextID PUEventKind.stop) + 1 ∧
    (Stop envAllFail wActiveState evStopA).2.trace.count
        (CallEvent.handleEvent wCtx.publishedContextID PUEventKind.destroy) =
      wActiveState.trace.count
        (CallEvent.handleEvent wCtx.publishedContextID PUEventKind.destroy) + 1 ∧
    (Stop envAllFail wActiveState evStopA).1 =
      (if envAllFail.ok (CallEvent.deleteCgroup (trimSlashes "/1")) then Except.ok ()
       else Except.error (Err.collabFail (CallEvent.deleteCgroup (trimSlashes "/1")))) :=
  C6_last_member_teardown envAllFail wActiveState evStopA "/1" "a" wCtx
    (by decide) (by decide) (by decide) (by decide) (by decide)

/-- C4: during resync, a readable record whose mark has no live pids has
its context record removed with no Start replay; a readable record whose
mark has live pids is replayed once per live pid with the stored event's
PID replaced under the same unit id; an unreadable record is skipped; and
the walk and the replay loop always continue to the next id or pid no
matter what the step before returned. -/
theorem C4_resync_reconciliation (env : Env) (mark2pid : List (String × List String))
    (s : MState) (id : String) :
    (∀ storedPU fs', GetContextInfo s.contextStore ("/" ++ id) = (Except.ok storedPU, fs') →
      alookup mark2pid storedPU.MarkVal = none →
      resyncStep env mark2pid s id = resyncDeadState s fs' id ∧
      alookup (resyncStep env mark2pid s id).contextStore (storeKey ("/" ++ id)) = none) ∧
    (∀ storedPU fs' pids,
      GetContextInfo s.contextStore ("/" ++ id) = (Except.ok storedPU, fs') →
      alookup mark2pid storedPU.MarkVal = some pids →
      resyncStep env mark2pid s id =
        resyncReplay env storedPU.eventInfo (resyncSkipState s fs') pids) ∧
    (∀ e fs', GetContextInfo s.contextStore ("/" ++ id) = (Except.error e, fs') →
      resyncStep env mark2pid s id = resyncSkipState s fs') ∧
    (∀ rest, resyncWalk env mark2pid s (id :: rest) =
      resyncWalk env mark2pid (resyncStep env mark2pid s id) rest) ∧
    (∀ base pid rest2, resyncReplay env base s (pid :: rest2) =
      resyncReplay env base
        (Start env s (EventInfo.mk base.PUID pid base.Cgroup)).2 rest2) ∧
    (∀ live, ReSync env s live =
      resyncWalk env (buildMarkMap env s live).1 (buildMarkMap env s live).2
        (s.contextStore.map Prod.fst)) := by
  refine ⟨?_, ?_, ?_, fun rest => rfl, fun base pid rest2 => rfl, fun live => rfl⟩
  · intro storedPU fs' hget hdead
    obtain ⟨hl, hfs⟩ := getContextInfo_ok_inverse s.contextStore ("/" ++ id) storedPU fs' hget
    have heq : resyncStep env mark2pid s id = resyncDeadState s fs' id := by
      simp [resyncStep, hget, hdead, resyncDeadState]
    refine ⟨heq, ?_⟩
    rw [heq]
    have hlook : alookup fs' (storeKey ("/" ++ id)) = some (DirContent.valid storedPU) := by
      rw [hfs]
      exact hl
    simp [resyncDeadState, RemoveContext, hlook]
    exact alookup_eraseKey_self _ _
  · intro storedPU fs' pids hget hlive
    simp [resyncStep, hget, hlive, resyncSkipState]
  · intro e fs' hget
    simp [resyncStep, hget, resyncSkipState]

/-- C4 witness: a stored record for unit a whose mark 5 is carried by two
live pids is replayed exactly twice, once per pid, under unit a. -/
theorem C4_resync_reconciliation_witness :
    resyncStep envAllOk [("5", ["7", "8"])] wStoreOnlyState "a" =
      resyncReplay envAllOk evA (resyncSkipState wStoreOnlyState
        [("a", DirContent.valid (StoredContext.mk "5" evA))]) ["7", "8"] :=
  (C4_resync_reconciliation envAllOk [("5", ["7", "8"])] wStoreOnlyState "a").2.1
    (StoredContext.mk "5" evA) [("a", DirContent.valid (StoredContext.mk "5" evA))]
    ["7", "8"] (by decide) (by decide)

/-- C5: for a unit id absent from the membership cache and the store, a
successful Start of one process followed by a Stop resolving that same
process leaves the membership entry and the context record absent; when
the process was not indexed before, all three structures return exactly to
their initial contents. -/
theorem C5_start_stop_roundtrip (env env2 : Env) (s : MState) (ev ev2 : EventInfo)
    (cid : String)
    (hfreshPU : alookup s.putoPidMap ev.PUID = none)
    (hfreshStore : alookup s.contextStore (storeKey ev.PUID) = none)
    (hok : (Start env s ev).1 = Except.ok ())
    (hg : generateContextID ev2 = Except.ok cid)
    (hb : ¬ cid = triremeBaseCgroup)
    (hsp : trimSlashes cid = ev.PID) :
    alookup (Stop env2 (Start env s ev).2 ev2).2.putoPidMap ev.PUID = none ∧
    alookup (Stop env2 (Start env s ev).2 ev2).2.contextStore (storeKey ev.PUID) = none ∧
    (alookup s.pidToPU ev.PID = none →
      (Stop env2 (Start env s ev).2 ev2).2.putoPidMap = s.putoPidMap ∧
      (Stop env2 (Start env s ev).2 ev2).2.pidToPU = s.pidToPU ∧
      (Stop env2 (Start env s ev).2 ev2).2.contextStore = s.contextStore) := by
  obtain ⟨hx, hsr, hhs, hcg, ⟨m, h2, h3, n, h4, h5⟩, hw⟩ :=
    start_fresh_ok_inverse env s ev hfreshPU hok
  have hstart := start_fresh_ok_spec env s ev m n hfreshPU hx hsr hhs hcg h2 h3 h4 h5 hw
  have hs1 : (Start env s ev).2 = startFreshOkState env s ev m n := by rw [hstart]
  have hpu : alookup (startFreshOkState env s ev m n).pidToPU (trimSlashes cid) =
      some ev.PUID := by
    rw [hsp]
    exact alookup_mapSet_self _ _ _
  have hment : alookup (startFreshOkState env s ev m n).putoPidMap ev.PUID =
      some (puToPidEntry.mk [ev.PID] (env.extractR ev)
        (ev.PUID ++ (env.extractR ev).cgroupMark)) :=
    alookup_mapSet_self _ _ _
  have hempty : (puToPidEntry.mk [ev.PID] (env.extractR ev)
      (ev.PUID ++ (env.extractR ev).cgroupMark)).pidlist.erase (trimSlashes cid) = [] := by
    rw [hsp]
    exact List.erase_cons_head _ _
  have hstop := stop_teardown_spec env2 (startFreshOkState env s ev m n) ev2 cid ev.PUID
    (puToPidEntry.mk [ev.PID] (env.extractR ev) (ev.PUID ++ (env.extractR ev).cgroupMark))
    hg hb hpu hment hempty
  have hstop2 : (Stop env2 (Start env s ev).2 ev2).2 =
      stopTeardownState env2 (startFreshOkState env s ev m n) ev.PUID (trimSlashes cid)
        (puToPidEntry.mk [ev.PID] (env.extractR ev)
          (ev.PUID ++ (env.extractR ev).cgroupMark)) := by
    rw [hs1, hstop]
  have hP : (Stop env2 (Start env s ev).2 ev2).2.putoPidMap =
      eraseKey ev.PUID s.putoPidMap := by
    rw [hstop2]
    show eraseKey ev.PUID (mapSet ev.PUID _
      (mapSet ev.PUID _ s.putoPidMap)) = eraseKey ev.PUID s.putoPidMap
    rw [eraseKey_mapSet, eraseKey_mapSet]
  have hI : (Stop env2 (Start env s ev).2 ev2).2.pidToPU =
      eraseKey ev.PID (mapSet ev.PID ev.PUID s.pidToPU) := by
    rw [hstop2, hsp]
    rfl
  have hS : (Stop env2 (Start env s ev).2 ev2).2.contextStore =
      eraseKey (storeKey ev.PUID) s.contextStore := by
    rw [hstop2]
    show (RemoveContext (StoreContext s.contextStore ev.PUID _) ev.PUID).2 =
      eraseKey (storeKey ev.PUID) s.contextStore
    rw [StoreContext]
    show (RemoveContext (mapSet (storeKey ev.PUID) _ s.contextStore) ev.PUID).2 =
      eraseKey (storeKey ev.PUID) s.contextStore
    simp [RemoveContext, alookup_mapSet_self]
    exact eraseKey_mapSet _ _ _
  refine ⟨?_, ?_, ?_⟩
  · rw [hP]
    exact alookup_eraseKey_self _ _
  · rw [hS]
    exact alookup_eraseKey_self _ _
  · intro hpidfresh
    refine ⟨?_, ?_, ?_⟩
    · rw [hP]
      exact eraseKey_of_alookup_none hfreshPU
    · rw [hI, eraseKey_mapSet]
      exact eraseKey_of_alookup_none hpidfresh
    · rw [hS]
      exact eraseKey_of_alookup_none hfreshStore

/-- C5 witness: Start of unit a with process 1 followed by the matching
cgroup-path Stop restores the empty state's maps and store. -/
theorem C5_start_stop_roundtrip_witness :
    (Stop envAllOk (Start envAllOk initState evA).2 evStopA).2.putoPidMap =
      initState.putoPidMap ∧
    (Stop envAllOk (Start envAllOk initState evA).2 evStopA).2.pidToPU =
      initState.pidToPU ∧
    (Stop envAllOk (Start envAllOk initState evA).2 evStopA).2.contextStore =
      initState.contextStore :=
  (C5_start_stop_roundtrip envAllOk envAllOk initState evA evStopA "/1"
    (by decide) (by decide) (by decide) (by decide) (by decide) (by decide)).2.2 (by decide)

end Trireme
